import Mathlib

/-!
# Verification of the AI-Observability-Toolkit core

Shallow embedding of the trace-correlation and analytics engine of the
`AI-Observability-Toolkit` repository, together with theorems settling the
specification claims.  Python floats are modelled by exact rationals (`ℚ`),
Python ints by `Int`/`Nat`, Python strings by `String` or `List Char` where
character-level slicing matters, Python dicts by association lists, and the
ambient clock / database by explicit parameters.
-/

namespace Obs

/-! ## src/config.py -/

/-- Pricing pair: USD per one million input tokens, output tokens. -/
structure Pricing where
  input : ℚ
  output : ℚ
  deriving Repr, DecidableEq

/-- `GROQ_PRICING` table from `src/config.py` (per 1M tokens in USD). -/
def GROQ_PRICING : List (String × Pricing) :=
  [ ("llama3-8b-8192", ⟨0.05, 0.08⟩)
  , ("llama3-70b-8192", ⟨0.59, 0.79⟩)
  , ("llama-3.1-8b-instant", ⟨0.05, 0.08⟩)
  , ("llama-3.1-70b-versatile", ⟨0.59, 0.79⟩)
  , ("llama-3.2-1b-preview", ⟨0.04, 0.04⟩)
  , ("llama-3.2-3b-preview", ⟨0.06, 0.06⟩)
  , ("llama-3.2-11b-vision-preview", ⟨0.18, 0.18⟩)
  , ("llama-3.2-90b-vision-preview", ⟨0.90, 0.90⟩)
  , ("llama-3.3-70b-versatile", ⟨0.59, 0.79⟩)
  , ("mixtral-8x7b-32768", ⟨0.24, 0.24⟩)
  , ("gemma-7b-it", ⟨0.07, 0.07⟩)
  , ("gemma2-9b-it", ⟨0.20, 0.20⟩)
  ]

/-- `DEFAULT_PRICING` for unknown models from `src/config.py`. -/
def DEFAULT_PRICING : Pricing := ⟨0.10, 0.10⟩

/-- `calculate_cost(model, input_tokens, output_tokens)` from `src/config.py`:
`pricing = GROQ_PRICING.get(model, DEFAULT_PRICING)`, then
`input_tokens/1_000_000 * pricing["input"] + output_tokens/1_000_000 * pricing["output"]`. -/
def calculate_cost (model : String) (input_tokens output_tokens : ℕ) : ℚ :=
  let pricing := ((GROQ_PRICING.lookup model).getD DEFAULT_PRICING)
  (input_tokens : ℚ) / 1000000 * pricing.input
    + (output_tokens : ℚ) / 1000000 * pricing.output

/-- The price pair the spec says `cost` uses: the table pair when the model is
present, the fixed default pair otherwise (spec-side restatement used to
compare against `calculate_cost`). -/
def specPrice (model : String) : Pricing :=
  (GROQ_PRICING.lookup model).getD DEFAULT_PRICING

/-! ## src/utils.py -/

/-- Python list/string slice `l[:k]`: for `k ≥ 0` the first `k` elements,
for `k < 0` all but the last `-k` elements (empty when `-k ≥ len`). -/
def pyTake (k : Int) (l : List Char) : List Char :=
  l.take (if 0 ≤ k then k.toNat else ((l.length : Int) + k).toNat)

/-- The three-character ellipsis `"..."` appended by `truncate_string`. -/
def ellipsis : List Char := ['.', '.', '.']

/-- `truncate_string(text, max_length)` from `src/utils.py`:
`text if len(text) <= max_length else text[: max_length - 3] + "..."`,
on strings viewed as character lists. -/
def truncate_string (text : List Char) (max_length : Int) : List Char :=
  if (text.length : Int) ≤ max_length then text
  else pyTake (max_length - 3) text ++ ellipsis

/-- `safe_divide(numerator, denominator, default)` from `src/utils.py`:
`numerator / denominator if denominator != 0 else default`. -/
def safe_divide (numerator denominator default : ℚ) : ℚ :=
  if denominator ≠ 0 then numerator / denominator else default

/-! ## src/metrics/latency_tracker.py — percentiles -/

/-- Python `int(q)` on a (here rational-valued) float: truncation toward zero. -/
def pyInt (q : ℚ) : Int :=
  if 0 ≤ q then ⌊q⌋ else ⌈q⌉

/-- Python list indexing `l[i]` for the in-range indices the percentile code
produces (negative Python indices wrap from the end; out-of-range reads are
never reached on the arguments the claims quantify over). -/
def pyGet (l : List ℚ) (i : Int) : ℚ :=
  if 0 ≤ i then l.getD i.toNat 0 else l.getD ((l.length : Int) + i).toNat 0

/-- Inner `percentile(data, p)` of `LatencyTracker.get_percentiles`
(`src/metrics/latency_tracker.py`): `0.0` on empty data, else
`k = (len(data)-1)*p`, `f = int(k)`, `c = int(k)+1`; `data[f]` when
`c >= len(data)`, else `data[f] + (data[c]-data[f]) * (k-f)`. -/
def percentile (data : List ℚ) (p : ℚ) : ℚ :=
  if data = [] then 0
  else
    let k : ℚ := ((data.length : ℚ) - 1) * p
    let f : Int := pyInt k
    let c : Int := pyInt k + 1
    if (data.length : Int) ≤ c then pyGet data f
    else
      let d0 := pyGet data f
      let d1 := pyGet data c
      d0 + (d1 - d0) * (k - (f : ℚ))

/-- `LatencyTracker.get_percentiles` on an already-filtered, ascending-sorted
duration list: all-zero on empty input, else the three percentiles. -/
def get_percentiles (durations : List ℚ) : ℚ × ℚ × ℚ :=
  if durations = [] then (0, 0, 0)
  else (percentile durations 0.50, percentile durations 0.95, percentile durations 0.99)

/-- The percentile formula as the spec words it: `k = p*(n-1)`, `f = floor k`,
`c = f+1`, linear interpolation `d[f] + (d[c]-d[f])*(k-f)` clipped to `d[f]`
when `c` is out of range; `0` on empty input (spec-side restatement). -/
def percentileSpec (data : List ℚ) (p : ℚ) : ℚ :=
  if data = [] then 0
  else
    let k : ℚ := (p : ℚ) * ((data.length : ℚ) - 1)
    let f : Int := ⌊k⌋
    let c : Int := f + 1
    if (data.length : Int) ≤ c then pyGet data f
    else pyGet data f + (pyGet data c - pyGet data f) * (k - (f : ℚ))

/-! ## src/metrics/error_detector.py -/

/-- Trace status values (`pending`, `success`, `error`). -/
inductive Status
  | pending
  | success
  | error
  deriving DecidableEq, Repr

/-- `ErrorDetector.get_error_rate` evaluated over the filtered trace set (the
SQL `COUNT(*)` / `SUM(CASE WHEN status = 'error' ...)` aggregation is taken
over an explicit list of trace statuses): `(error_count / total_requests) * 100`
when `total_requests > 0`, else `0.0`. -/
def get_error_rate (statuses : List Status) : ℚ :=
  let total_requests := statuses.length
  let error_count := (statuses.filter (· = Status.error)).length
  if 0 < total_requests then ((error_count : ℚ) / (total_requests : ℚ)) * 100 else 0

/-- Population mean of the bucket error rates:
`mean_rate = sum(rates) / len(rates)`. -/
def bucketMean (rates : List ℚ) : ℚ := rates.sum / (rates.length : ℚ)

/-- Population variance of the bucket error rates:
`variance = sum((r - mean_rate) ** 2 for r in rates) / len(rates)`. -/
def bucketVariance (rates : List ℚ) : ℚ :=
  ((rates.map (fun r => (r - bucketMean rates) ^ 2)).sum) / (rates.length : ℚ)

/-- One anomaly report of `detect_anomalies`: the flagged bucket, its error
rate, and its deviation `error_rate - mean_rate`.  (The code also reports the
threshold `mean + multiplier * stddev`; that value is irrational in general,
so the theorems state it symbolically instead of storing it.) -/
structure Anomaly where
  time_bucket : String
  error_rate : ℚ
  deviation : ℚ
  deriving DecidableEq, Repr

/-- `ErrorDetector.detect_anomalies` evaluated over the hourly error-rate
buckets (the `get_error_rate_over_time` DB aggregation is supplied as the
explicit `(time_bucket, error_rate)` list): fewer than 3 buckets gives `[]`;
else flag every bucket with `error_rate > mean_rate + multiplier * std_dev`
where `std_dev = variance ** 0.5`.  To stay in exact arithmetic the strict
comparison against `mean + m * sqrt(variance)` is encoded by the equivalent
(for `m ≥ 0`) conditions `mean < rate ∧ (rate - mean)^2 > m^2 * variance`;
the equivalence with the square-root form is proved in
`anomaly_flag_iff_sqrt`. -/
def detect_anomalies (error_rates : List (String × ℚ))
    (threshold_multiplier : ℚ) : List Anomaly :=
  if error_rates.length < 3 then []
  else
    let rates := error_rates.map (·.2)
    let mean_rate := bucketMean rates
    let variance := bucketVariance rates
    (error_rates.filter (fun br =>
        decide (mean_rate < br.2) &&
        decide (threshold_multiplier ^ 2 * variance < (br.2 - mean_rate) ^ 2))).map
      (fun br => ⟨br.1, br.2, br.2 - mean_rate⟩)

/-! ## src/metrics/latency_tracker.py — histogram -/

/-- SQL `MIN` over the filtered duration set (`NULL`, i.e. `none`, on empty). -/
def listMin : List ℚ → Option ℚ
  | [] => none
  | a :: as => some (as.foldl min a)

/-- SQL `MAX` over the filtered duration set. -/
def listMax : List ℚ → Option ℚ
  | [] => none
  | a :: as => some (as.foldl max a)

/-- One histogram bucket of `get_latency_distribution`. -/
structure HistBucket where
  bucket_min : ℚ
  bucket_max : ℚ
  count : ℕ
  deriving DecidableEq, Repr

/-- `LatencyTracker.get_latency_distribution` evaluated over the filtered
duration set: `[]` when the set is empty or the minimum is `0` (the Python
guard `if not results or not results[0]["min_latency"]` treats a zero minimum
as falsy); otherwise `num_buckets` buckets of width `(max-min)/num_buckets`,
the `i`-th counting durations `d` with `bucket_min <= d < bucket_max`
(the SQL `duration_ms >= ? AND duration_ms < ?` count query). -/
def get_latency_distribution (durations : List ℚ) (num_buckets : ℕ) :
    List HistBucket :=
  match listMin durations, listMax durations with
  | some min_lat, some max_lat =>
    if min_lat = 0 then []
    else
      let bucket_width := (max_lat - min_lat) / (num_buckets : ℚ)
      (List.range num_buckets).map (fun (i : ℕ) =>
        let bucket_min := min_lat + (i : ℚ) * bucket_width
        let bucket_max := bucket_min + bucket_width
        ⟨bucket_min, bucket_max,
          (durations.filter (fun d =>
            decide (bucket_min ≤ d) && decide (d < bucket_max))).length⟩)
  | _, _ => []

/-! ## src/tracers/context.py -/

/-- Python-dict metadata value: either a plain string or the `tags` list
stored by the callback (`combined_metadata["tags"] = tags`). -/
inductive MetaVal
  | str (v : String)
  | tagList (v : List String)
  deriving DecidableEq, Repr

/-- String-keyed metadata map (Python dict as an association list). -/
abbrev Metadata := List (String × MetaVal)

/-- One frame of the thread-local trace context stack
(`TraceContext.push_trace` builds this dictionary). -/
structure Frame where
  trace_id : String
  trace_type : String
  name : String
  start_time : ℚ
  parent_trace_id : Option String
  metadata : Metadata
  deriving DecidableEq, Repr

/-- The per-logical-path stack (`self._local.stack`, a Python list whose top
is its last element). -/
abbrev TraceStack := List Frame

/-- `TraceContext.get_current_trace_id`: `stack[-1]["trace_id"]`, or `None`
when the stack is empty. -/
def get_current_trace_id (stack : TraceStack) : Option String :=
  stack.getLast?.map (·.trace_id)

/-- `TraceContext.get_current_trace`: the top frame, or `None` when empty. -/
def get_current_trace (stack : TraceStack) : Option Frame :=
  stack.getLast?

/-- `TraceContext.push_trace`: appends a frame whose `parent_trace_id` is
`self.get_current_trace_id()` taken before the append. -/
def push_trace (stack : TraceStack) (trace_id trace_type name : String)
    (start_time : ℚ) (metadata : Metadata) : TraceStack :=
  stack ++ [{ trace_id := trace_id, trace_type := trace_type, name := name,
              start_time := start_time,
              parent_trace_id := get_current_trace_id stack,
              metadata := metadata }]

/-- `TraceContext.pop_trace`: `stack.pop()` returning the removed top frame
when the stack is non-empty, else a no-op returning `None`; the second
component is the stack after the call. -/
def pop_trace (stack : TraceStack) : Option Frame × TraceStack :=
  if stack ≠ [] then (stack.getLast?, stack.dropLast) else (none, stack)

/-- `TraceContext.get_stack_depth`: `len(self._local.stack)`. -/
def get_stack_depth (stack : TraceStack) : ℕ := stack.length

/-! ## src/tracers/observability_callback.py

Python dicts are association lists with at most one binding per key;
`uuid.uuid4()` freshness is modelled by a monotone counter; the ambient
clock `time.time()` is an explicit `now` argument; the SQLite store is the
ordered list of rows written so far, and a write raises exactly when the
state's `failOn` predicate holds of the row (modelling a storage failure).
Opaque payloads (chain inputs/outputs, tool input/output, agent action data)
are carried as already-serialized strings. -/

/-- Python `d[k]` presence-respecting read: first binding for `k`. -/
def dictGet {α : Type} (m : List (String × α)) (k : String) : Option α :=
  m.lookup k

/-- Python `d[k] = v`: replace the existing binding or append a new one. -/
def dictSet {α : Type} (m : List (String × α)) (k : String) (v : α) :
    List (String × α) :=
  if (m.lookup k).isSome then
    m.map (fun p => if p.1 = k then (k, v) else p)
  else m ++ [(k, v)]

/-- Python `del d[k]`: `none` models the `KeyError` raised when `k` is
absent, otherwise the dict without `k`. -/
def pyDel {α : Type} (m : List (String × α)) (k : String) :
    Option (List (String × α)) :=
  if (m.lookup k).isSome then some (m.filter (fun p => p.1 ≠ k)) else none

/-- `d.update(other)` / `{**a, **b}` merge: bindings of `b` win. -/
def dictMerge {α : Type} (a b : List (String × α)) : List (String × α) :=
  b.foldl (fun m kv => dictSet m kv.1 kv.2) a

/-- `generate_trace_id` from `src/utils.py` returns `str(uuid.uuid4())`;
uniqueness of uuid4 draws is modelled by numbering them. -/
def generate_trace_id (n : ℕ) : String := "uuid4-" ++ toString n

/-- The `serialized` descriptor as the callback reads it:
`serialized.get("name", serialized.get("id", ["unknown"])[-1])`. -/
structure Serialized where
  name : Option String
  id : Option (List String)
  deriving DecidableEq, Repr

/-- `serialized.get("name", serialized.get("id", ["unknown"])[-1])`: the
default argument of the outer `get` is evaluated eagerly, so a descriptor
whose `id` is present but an empty list raises an `IndexError` at `[-1]`
even when `name` is present — modelled as `none`.  Otherwise the resolved
name: `name` when present, else the last element of `id` (or of the
`["unknown"]` fallback when `id` is absent). -/
def serializedName (s : Serialized) : Option String :=
  ((s.id.getD ["unknown"]).getLast?).map (fun lastId => s.name.getD lastId)

/-- `token_usage` dict of an `LLMResult`. -/
structure TokenUsage where
  prompt_tokens : Option ℕ
  completion_tokens : Option ℕ
  total_tokens : Option ℕ
  deriving DecidableEq, Repr

/-- `response.llm_output` dict as `on_llm_end` reads it. -/
structure LLMOutput where
  token_usage : Option TokenUsage
  model_name : Option String
  model : Option String
  deriving DecidableEq, Repr

/-- `LLMResult` as `on_llm_end` reads it: optional `llm_output`, the
generation texts, and the optional `prompts` attribute
(`hasattr(response, "prompts")`). -/
structure LLMResult where
  llm_output : Option LLMOutput
  generations : List (List String)
  prompts : Option (List String)
  deriving DecidableEq, Repr

/-- `AgentAction` fields read by `on_agent_action` (`tool_input` and `log`
carried as serialized strings). -/
structure AgentAction where
  tool : String
  tool_input : String
  log : String
  deriving DecidableEq, Repr

/-- `AgentFinish` fields read by `on_agent_finish`. -/
structure AgentFinish where
  return_values : String
  log : String
  deriving DecidableEq, Repr

/-- Configuration surface read from `src/config.py` by the callback. -/
structure Config where
  enable_prompt_logging : Bool
  enable_response_logging : Bool
  max_prompt_length : Int
  max_response_length : Int

/-- The values of `src/config.py` under its default environment
(`ENABLE_*_LOGGING = true`, `MAX_*_LENGTH = 10000`). -/
def defaultConfig : Config :=
  { enable_prompt_logging := true, enable_response_logging := true,
    max_prompt_length := 10000, max_response_length := 10000 }

/-- `truncate_string` on Lean `String`s (the character-list core is
`truncate_string` above). -/
def truncateStr (text : String) (max_length : Int) : String :=
  ⟨truncate_string text.data max_length⟩

/-- Row written by `TraceRepository.create_trace` (status `'pending'`). -/
structure TraceRec where
  trace_id : String
  trace_type : String
  name : String
  start_time : ℚ
  session_id : Option String
  parent_trace_id : Option String
  metadata : Metadata

/-- Row update written by `TraceRepository.update_trace_completion`;
`duration_ms = (end_time - start_time) * 1000`. -/
structure UpdateRec where
  trace_id : String
  end_time : ℚ
  duration_ms : ℚ
  status : String
  error_message : Option String

/-- Row written by `LLMCallRepository.create_llm_call`. -/
structure LLMCallRec where
  trace_id : String
  model : String
  prompt : String
  response : String
  input_tokens : ℕ
  output_tokens : ℕ
  total_tokens : ℕ
  cost_usd : ℚ
  system_prompt : Option String
  provider : String

/-- Row written by `EventRepository.create_event` (`data` serialized). -/
structure EventRec where
  trace_id : String
  event_type : String
  event_name : String
  timestamp : ℚ
  data : String

/-- One write against the store. -/
inductive Row
  | trace (r : TraceRec)
  | update (r : UpdateRec)
  | llmCall (r : LLMCallRec)
  | event (r : EventRec)

/-- State of one `ObservabilityCallback` on one logical path: the
thread-local context stack and session, the shared run-correlation maps,
the rows written so far, the `print` side channel, the uuid counter, and
the store's failure behaviour. -/
structure CbState where
  stack : TraceStack
  session_id : Option String
  global_metadata : Metadata
  run_id_to_trace_id : List (String × String)
  run_start_times : List (String × ℚ)
  rows : List Row
  err_log : List String
  fresh : ℕ
  failOn : Row → Bool

/-- `_get_or_create_trace_id`: return the mapped trace id for `run_id`,
first allocating and storing a fresh one when the run id is unseen. -/
def get_or_create_trace_id (s : CbState) (run_id : String) :
    String × CbState :=
  match dictGet s.run_id_to_trace_id run_id with
  | some t => (t, s)
  | none =>
      let t := generate_trace_id s.fresh
      (t, { s with
              run_id_to_trace_id := dictSet s.run_id_to_trace_id run_id t,
              fresh := s.fresh + 1 })

/-- One repository write: raises (second component `some msg`) exactly when
the store fails on this row, leaving the row list unchanged; otherwise
appends the row. -/
def writeRow (s : CbState) (r : Row) : CbState × Option String :=
  if s.failOn r then (s, some "storage error")
  else ({ s with rows := s.rows ++ [r] }, none)

/-- `_safe_execute`: run the inner body; on an exception keep the body's
(partially mutated) state and print the error to the side channel — the
exception never propagates. -/
def safe_execute (r : CbState × Option String) : CbState :=
  match r with
  | (s, none) => s
  | (s, some e) =>
      { s with err_log := s.err_log ++ ["Observability callback error: " ++ e] }

/-- Metadata combination of the `on_*_start` handlers:
`{**self.global_metadata}`, then `update(metadata)` when `metadata` is
truthy, then `combined["tags"] = tags` when `tags` is truthy. -/
def combineMetadata (s : CbState) (metadata : Option Metadata)
    (tags : Option (List String)) : Metadata :=
  let c := s.global_metadata
  let c := match metadata with
           | some md => if md ≠ [] then dictMerge c md else c
           | none => c
  match tags with
  | some ts => if ts ≠ [] then dictSet c "tags" (MetaVal.tagList ts) else c
  | none => c

/-- Exception propagation of the Python bodies: when the first step raised
(`some e`), the rest of the body is skipped and the partially mutated state
is kept; otherwise the continuation runs. -/
def bindExc (r : CbState × Option String)
    (k : CbState → CbState × Option String) : CbState × Option String :=
  match r with
  | (u, some e) => (u, some e)
  | (u, none) => k u

/-- `del d[k]` followed by the rest of the body: a missing key raises a
`KeyError` that aborts the body, keeping the state mutated so far. -/
def bindPy {α : Type} (o : Option α) (u : CbState)
    (k : α → CbState × Option String) : CbState × Option String :=
  match o with
  | none => (u, some "KeyError")
  | some a => k a

/-- Body `_on_llm_start` of `on_llm_start`: resolve the trace id, record the
start time, resolve the parent (explicit `parent_run_id` first, else the
context stack top), resolve the model name (an empty `id` list raises an
`IndexError` here, aborting with no trace written and no frame pushed),
create the `pending` trace, push the frame. -/
def on_llm_start_body (s : CbState) (serialized : Serialized)
    (run_id : String) (parent_run_id : Option String)
    (tags : Option (List String)) (metadata : Option Metadata) (now : ℚ) :
    CbState × Option String :=
  let trace_id := (get_or_create_trace_id s run_id).1
  let s := (get_or_create_trace_id s run_id).2
  let start_time := now
  let s := { s with run_start_times := dictSet s.run_start_times run_id start_time }
  let parent_trace_id :=
    match parent_run_id with
    | some p => some (get_or_create_trace_id s p).1
    | none => get_current_trace_id s.stack
  let s :=
    match parent_run_id with
    | some p => (get_or_create_trace_id s p).2
    | none => s
  match serializedName serialized with
  | none => (s, some "IndexError")
  | some model =>
    let combined_metadata := combineMetadata s metadata tags
    bindExc (writeRow s (.trace
      { trace_id := trace_id, trace_type := "llm", name := "llm_" ++ model,
        start_time := start_time, session_id := s.session_id,
        parent_trace_id := parent_trace_id, metadata := combined_metadata }))
      (fun u =>
        ({ u with stack := push_trace u.stack trace_id "llm" ("llm_" ++ model)
                    start_time combined_metadata }, none))

/-- Body `_on_llm_end` of `on_llm_end`: resolve the trace id, pop the stack,
extract token usage / model / texts from the result, compute the cost,
truncate (or replace) prompt and response, write the completion update and
the LLM-call row, then `del` both transient run-id mappings (the second
`del` raises a `KeyError` when the run id was never started). -/
def on_llm_end_body (cfg : Config) (s : CbState) (response : LLMResult)
    (run_id : String) (now : ℚ) : CbState × Option String :=
  let trace_id := (get_or_create_trace_id s run_id).1
  let s := (get_or_create_trace_id s run_id).2
  let end_time := now
  let start_time := (dictGet s.run_start_times run_id).getD end_time
  let s := { s with stack := (pop_trace s.stack).2 }
  let token_usage := (response.llm_output.bind (·.token_usage))
  let input_tokens := (token_usage.bind (·.prompt_tokens)).getD 0
  let output_tokens := (token_usage.bind (·.completion_tokens)).getD 0
  let total_tokens := (token_usage.bind (·.total_tokens)).getD
                        (input_tokens + output_tokens)
  let model := (response.llm_output.bind (·.model_name)).getD
                 ((response.llm_output.bind (·.model)).getD "unknown")
  let cost_usd := calculate_cost model input_tokens output_tokens
  let response_text := ((response.generations.head?).bind List.head?).getD ""
  let prompt := ((response.prompts.getD []).head?).getD ""
  let prompt := if cfg.enable_prompt_logging then
                  truncateStr prompt cfg.max_prompt_length
                else "[logging disabled]"
  let response_text := if cfg.enable_response_logging then
                         truncateStr response_text cfg.max_response_length
                       else "[logging disabled]"
  bindExc (writeRow s (.update
    { trace_id := trace_id, end_time := end_time,
      duration_ms := (end_time - start_time) * 1000,
      status := "success", error_message := none }))
    (fun u =>
  bindExc (writeRow u (.llmCall
    { trace_id := trace_id, model := model, prompt := prompt,
      response := response_text, input_tokens := input_tokens,
      output_tokens := output_tokens, total_tokens := total_tokens,
      cost_usd := cost_usd, system_prompt := none, provider := "groq" }))
    (fun u =>
  bindPy (pyDel u.run_id_to_trace_id run_id) u (fun m1 =>
  bindPy (pyDel { u with run_id_to_trace_id := m1 }.run_start_times run_id)
    { u with run_id_to_trace_id := m1 } (fun m2 =>
  ({ u with run_id_to_trace_id := m1, run_start_times := m2 }, none)))))

/-- Body `_on_llm_error` of `on_llm_error`: pop the stack, write the error
completion, then conditionally delete the transient mappings. -/
def on_llm_error_body (s : CbState) (error : String) (run_id : String)
    (now : ℚ) : CbState × Option String :=
  let trace_id := (get_or_create_trace_id s run_id).1
  let s := (get_or_create_trace_id s run_id).2
  let end_time := now
  let start_time := (dictGet s.run_start_times run_id).getD end_time
  let s := { s with stack := (pop_trace s.stack).2 }
  bindExc (writeRow s (.update
    { trace_id := trace_id, end_time := end_time,
      duration_ms := (end_time - start_time) * 1000,
      status := "error", error_message := some error }))
    (fun u =>
      ({ u with
          run_id_to_trace_id :=
            (pyDel u.run_id_to_trace_id run_id).getD u.run_id_to_trace_id,
          run_start_times :=
            (pyDel u.run_start_times run_id).getD u.run_start_times }, none))

/-- Body `_on_chain_start` of `on_chain_start`: like `_on_llm_start`
(including the `IndexError` abort on an empty `id` list) plus a
`chain_start` event written after the push. -/
def on_chain_start_body (cfg : Config) (s : CbState) (serialized : Serialized)
    (inputs : String) (run_id : String) (parent_run_id : Option String)
    (tags : Option (List String)) (metadata : Option Metadata) (now : ℚ) :
    CbState × Option String :=
  let trace_id := (get_or_create_trace_id s run_id).1
  let s := (get_or_create_trace_id s run_id).2
  let start_time := now
  let s := { s with run_start_times := dictSet s.run_start_times run_id start_time }
  let parent_trace_id :=
    match parent_run_id with
    | some p => some (get_or_create_trace_id s p).1
    | none => get_current_trace_id s.stack
  let s :=
    match parent_run_id with
    | some p => (get_or_create_trace_id s p).2
    | none => s
  match serializedName serialized with
  | none => (s, some "IndexError")
  | some chain_name =>
    let combined_metadata := combineMetadata s metadata tags
    bindExc (writeRow s (.trace
      { trace_id := trace_id, trace_type := "chain",
        name := "chain_" ++ chain_name, start_time := start_time,
        session_id := s.session_id, parent_trace_id := parent_trace_id,
        metadata := combined_metadata }))
      (fun u =>
        writeRow { u with stack := (push_trace u.stack trace_id "chain"
            ("chain_" ++ chain_name) start_time combined_metadata) }
          (.event
            { trace_id := trace_id, event_type := "chain_start",
              event_name := chain_name, timestamp := start_time,
              data := if cfg.enable_prompt_logging then inputs else "{}" }))

/-- Body `_on_chain_end` of `on_chain_end`. -/
def on_chain_end_body (cfg : Config) (s : CbState) (outputs : String)
    (run_id : String) (now : ℚ) : CbState × Option String :=
  let trace_id := (get_or_create_trace_id s run_id).1
  let s := (get_or_create_trace_id s run_id).2
  let end_time := now
  let start_time := (dictGet s.run_start_times run_id).getD end_time
  let s := { s with stack := (pop_trace s.stack).2 }
  bindExc (writeRow s (.update
    { trace_id := trace_id, end_time := end_time,
      duration_ms := (end_time - start_time) * 1000,
      status := "success", error_message := none }))
    (fun u =>
  bindExc (writeRow u (.event
    { trace_id := trace_id, event_type := "chain_end",
      event_name := "chain_completed", timestamp := end_time,
      data := if cfg.enable_response_logging then outputs else "{}" }))
    (fun u =>
      ({ u with
          run_id_to_trace_id :=
            (pyDel u.run_id_to_trace_id run_id).getD u.run_id_to_trace_id,
          run_start_times :=
            (pyDel u.run_start_times run_id).getD u.run_start_times }, none)))

/-- Body `_on_chain_error` of `on_chain_error` (same steps as
`_on_llm_error`). -/
def on_chain_error_body (s : CbState) (error : String) (run_id : String)
    (now : ℚ) : CbState × Option String :=
  on_llm_error_body s error run_id now

/-- Body `_on_tool_start` of `on_tool_start`: creates the trace and a
`tool_start` event but does not push onto the context stack; the tool name
is `serialized.get("name", "unknown_tool")`. -/
def on_tool_start_body (cfg : Config) (s : CbState) (serialized : Serialized)
    (input_str : String) (run_id : String) (parent_run_id : Option String)
    (tags : Option (List String)) (metadata : Option Metadata) (now : ℚ) :
    CbState × Option String :=
  let trace_id := (get_or_create_trace_id s run_id).1
  let s := (get_or_create_trace_id s run_id).2
  let start_time := now
  let s := { s with run_start_times := dictSet s.run_start_times run_id start_time }
  let parent_trace_id :=
    match parent_run_id with
    | some p => some (get_or_create_trace_id s p).1
    | none => get_current_trace_id s.stack
  let s :=
    match parent_run_id with
    | some p => (get_or_create_trace_id s p).2
    | none => s
  let tool_name := serialized.name.getD "unknown_tool"
  let combined_metadata := combineMetadata s metadata tags
  bindExc (writeRow s (.trace
    { trace_id := trace_id, trace_type := "tool",
      name := "tool_" ++ tool_name, start_time := start_time,
      session_id := s.session_id, parent_trace_id := parent_trace_id,
      metadata := combined_metadata }))
    (fun u =>
      writeRow u (.event
        { trace_id := trace_id, event_type := "tool_start",
          event_name := tool_name, timestamp := start_time,
          data := if cfg.enable_prompt_logging then input_str else "{}" }))

/-- Body `_on_tool_end` of `on_tool_end`: completion update and `tool_end`
event, no stack pop. -/
def on_tool_end_body (cfg : Config) (s : CbState) (output : String)
    (run_id : String) (now : ℚ) : CbState × Option String :=
  let trace_id := (get_or_create_trace_id s run_id).1
  let s := (get_or_create_trace_id s run_id).2
  let end_time := now
  let start_time := (dictGet s.run_start_times run_id).getD end_time
  bindExc (writeRow s (.update
    { trace_id := trace_id, end_time := end_time,
      duration_ms := (end_time - start_time) * 1000,
      status := "success", error_message := none }))
    (fun u =>
  bindExc (writeRow u (.event
    { trace_id := trace_id, event_type := "tool_end",
      event_name := "tool_completed", timestamp := end_time,
      data := if cfg.enable_response_logging then output else "{}" }))
    (fun u =>
      ({ u with
          run_id_to_trace_id :=
            (pyDel u.run_id_to_trace_id run_id).getD u.run_id_to_trace_id,
          run_start_times :=
            (pyDel u.run_start_times run_id).getD u.run_start_times }, none)))

/-- Body `_on_tool_error` of `on_tool_error`: error update, no stack pop. -/
def on_tool_error_body (s : CbState) (error : String) (run_id : String)
    (now : ℚ) : CbState × Option String :=
  let trace_id := (get_or_create_trace_id s run_id).1
  let s := (get_or_create_trace_id s run_id).2
  let end_time := now
  let start_time := (dictGet s.run_start_times run_id).getD end_time
  bindExc (writeRow s (.update
    { trace_id := trace_id, end_time := end_time,
      duration_ms := (end_time - start_time) * 1000,
      status := "error", error_message := some error }))
    (fun u =>
      ({ u with
          run_id_to_trace_id :=
            (pyDel u.run_id_to_trace_id run_id).getD u.run_id_to_trace_id,
          run_start_times :=
            (pyDel u.run_start_times run_id).getD u.run_start_times }, none))

/-- Body `_on_agent_action` of `on_agent_action`: append an `agent_action`
event under the trace resolved from `parent_run_id` or the stack top; no
new trace is opened. -/
def on_agent_action_body (cfg : Config) (s : CbState) (action : AgentAction)
    (parent_run_id : Option String) (now : ℚ) : CbState × Option String :=
  let current_trace_id :=
    match parent_run_id with
    | some p => some (get_or_create_trace_id s p).1
    | none => get_current_trace_id s.stack
  let s :=
    match parent_run_id with
    | some p => (get_or_create_trace_id s p).2
    | none => s
  match current_trace_id with
  | some tid =>
      writeRow s (.event
        { trace_id := tid, event_type := "agent_action",
          event_name := action.tool, timestamp := now,
          data := if cfg.enable_prompt_logging then
                    action.tool ++ "|" ++ action.tool_input ++ "|" ++ action.log
                  else "{}" })
  | none => (s, none)

/-- Body `_on_agent_finish` of `on_agent_finish`. -/
def on_agent_finish_body (cfg : Config) (s : CbState) (finish : AgentFinish)
    (parent_run_id : Option String) (now : ℚ) : CbState × Option String :=
  let current_trace_id :=
    match parent_run_id with
    | some p => some (get_or_create_trace_id s p).1
    | none => get_current_trace_id s.stack
  let s :=
    match parent_run_id with
    | some p => (get_or_create_trace_id s p).2
    | none => s
  match current_trace_id with
  | some tid =>
      writeRow s (.event
        { trace_id := tid, event_type := "agent_finish",
          event_name := "agent_completed", timestamp := now,
          data := if cfg.enable_response_logging then
                    finish.return_values ++ "|" ++ finish.log
                  else "{}" })
  | none => (s, none)

/-- One host-framework lifecycle notification (an invocation of one of the
eleven public entry points, with its arguments and arrival time). -/
inductive CbEvent
  | llmStart (serialized : Serialized) (run_id : String)
      (parent_run_id : Option String) (tags : Option (List String))
      (metadata : Option Metadata) (now : ℚ)
  | llmEnd (response : LLMResult) (run_id : String) (now : ℚ)
  | llmError (error : String) (run_id : String) (now : ℚ)
  | chainStart (serialized : Serialized) (inputs : String) (run_id : String)
      (parent_run_id : Option String) (tags : Option (List String))
      (metadata : Option Metadata) (now : ℚ)
  | chainEnd (outputs : String) (run_id : String) (now : ℚ)
  | chainError (error : String) (run_id : String) (now : ℚ)
  | toolStart (serialized : Serialized) (input_str : String) (run_id : String)
      (parent_run_id : Option String) (tags : Option (List String))
      (metadata : Option Metadata) (now : ℚ)
  | toolEnd (output : String) (run_id : String) (now : ℚ)
  | toolError (error : String) (run_id : String) (now : ℚ)
  | agentAction (action : AgentAction) (parent_run_id : Option String) (now : ℚ)
  | agentFinish (finish : AgentFinish) (parent_run_id : Option String) (now : ℚ)

/-- A public entry point: the matching inner body run under the
`_safe_execute` failure boundary. -/
def step (cfg : Config) (e : CbEvent) (s : CbState) : CbState :=
  match e with
  | .llmStart ser rid prid tags md now =>
      safe_execute (on_llm_start_body s ser rid prid tags md now)
  | .llmEnd resp rid now => safe_execute (on_llm_end_body cfg s resp rid now)
  | .llmError err rid now => safe_execute (on_llm_error_body s err rid now)
  | .chainStart ser inp rid prid tags md now =>
      safe_execute (on_chain_start_body cfg s ser inp rid prid tags md now)
  | .chainEnd out rid now => safe_execute (on_chain_end_body cfg s out rid now)
  | .chainError err rid now => safe_execute (on_chain_error_body s err rid now)
  | .toolStart ser inp rid prid tags md now =>
      safe_execute (on_tool_start_body cfg s ser inp rid prid tags md now)
  | .toolEnd out rid now => safe_execute (on_tool_end_body cfg s out rid now)
  | .toolError err rid now => safe_execute (on_tool_error_body s err rid now)
  | .agentAction act prid now => safe_execute (on_agent_action_body cfg s act prid now)
  | .agentFinish fin prid now => safe_execute (on_agent_finish_body cfg s fin prid now)

/-! ## Helper lemmas -/

/-- Fresh empty callback state used to instantiate the correlation and
boundary theorems at concrete inputs. -/
def emptyState : CbState :=
  { stack := [], session_id := none, global_metadata := [],
    run_id_to_trace_id := [], run_start_times := [], rows := [],
    err_log := [], fresh := 0, failOn := fun _ => false }

/-- The anomaly-detection example: hourly error-rate buckets `[1,1,1,1,50]`. -/
def exBuckets : List (String × ℚ) :=
  [("b0", 1), ("b1", 1), ("b2", 1), ("b3", 1), ("b4", 50)]

theorem dictSet_of_none {α : Type} (m : List (String × α)) (k : String) (v : α)
    (h : m.lookup k = none) : dictSet m k v = m ++ [(k, v)] := by
  unfold dictSet
  rw [h]
  rfl

theorem dictGet_append_self {α : Type} (m : List (String × α)) (k : String) (v : α)
    (h : dictGet m k = none) : dictGet (m ++ [(k, v)]) k = some v := by
  unfold dictGet at h ⊢
  induction m with
  | nil => simp [List.lookup]
  | cons p ps ih =>
    rcases hbeq : (k == p.1) with _ | _
    · simp only [List.lookup, hbeq] at h
      simp only [List.cons_append, List.lookup, hbeq]
      exact ih h
    · simp only [List.lookup, hbeq] at h
      cases h

theorem dictGet_append_other {α : Type} (m : List (String × α)) (k k' : String) (v : α)
    (h : k' ≠ k) : dictGet (m ++ [(k, v)]) k' = dictGet m k' := by
  unfold dictGet
  have hbne : (k' == k) = false := beq_eq_false_iff_ne.2 h
  induction m with
  | nil => simp [List.lookup, hbne]
  | cons p ps ih =>
    rcases hbeq : (k' == p.1) with _ | _
    · simp only [List.cons_append, List.lookup, hbeq]
      exact ih
    · simp only [List.cons_append, List.lookup, hbeq]

theorem percentile_example_25 : percentile [10, 20, 30, 40] 0.5 = 25 := by
  have h1 : pyInt (((([10, 20, 30, 40] : List ℚ).length : ℚ) - 1) * 0.5) = 1 := by
    norm_num [pyInt]
  have e1 : pyGet [10, 20, 30, 40] 1 = 20 := rfl
  have e2 : pyGet [10, 20, 30, 40] 2 = 30 := rfl
  simp only [percentile, h1]
  rw [if_neg (by decide)]
  norm_num [e1, e2]

theorem bucketVariance_nonneg (rates : List ℚ) : 0 ≤ bucketVariance rates := by
  unfold bucketVariance
  apply div_nonneg _ (by positivity)
  apply List.sum_nonneg
  intro x hx
  simp only [List.mem_map] at hx
  obtain ⟨r, _, rfl⟩ := hx
  positivity

/-- The flagging condition of `detect_anomalies` (squared comparison in exact
arithmetic) agrees with the spec formula `rate > mean + m * sqrt(variance)`
for a nonnegative multiplier. -/
theorem anomaly_flag_iff_sqrt (mean var rate m : ℚ) (hm : 0 ≤ m) (hv : 0 ≤ var) :
    (mean < rate ∧ m ^ 2 * var < (rate - mean) ^ 2) ↔
      ((mean : ℝ) + m * Real.sqrt (var : ℝ) < (rate : ℝ)) := by
  have hb : (0:ℝ) ≤ (m : ℝ) * Real.sqrt (var : ℝ) :=
    mul_nonneg (by exact_mod_cast hm) (Real.sqrt_nonneg _)
  have hbsq : ((m : ℝ) * Real.sqrt (var : ℝ)) ^ 2 = (m : ℝ) ^ 2 * (var : ℝ) := by
    rw [mul_pow, Real.sq_sqrt (by exact_mod_cast hv)]
  constructor
  · rintro ⟨hlt, hsq⟩
    have hd : (0:ℝ) < (rate : ℝ) - (mean : ℝ) := by
      have : (mean : ℝ) < (rate : ℝ) := by exact_mod_cast hlt
      linarith
    have hsq' : ((m : ℝ) * Real.sqrt (var : ℝ)) ^ 2 < ((rate : ℝ) - (mean : ℝ)) ^ 2 := by
      rw [hbsq]
      have := (Rat.cast_lt (K := ℝ)).2 hsq
      push_cast at this
      convert this using 2 <;> push_cast <;> ring
    have := lt_of_pow_lt_pow_left 2 (le_of_lt hd) hsq'
    linarith
  · intro h
    have hd : (0:ℝ) < (rate : ℝ) - (mean : ℝ) := by
      nlinarith [Real.sqrt_nonneg (var : ℝ), hb]
    have hlt : mean < rate := by
      have : (mean : ℝ) < (rate : ℝ) := by linarith
      exact_mod_cast this
    have hblt : (m : ℝ) * Real.sqrt (var : ℝ) < (rate : ℝ) - (mean : ℝ) := by linarith
    have hsq' : ((m : ℝ) * Real.sqrt (var : ℝ)) ^ 2 < ((rate : ℝ) - (mean : ℝ)) ^ 2 :=
      pow_lt_pow_left hblt hb (two_ne_zero)
    refine ⟨hlt, ?_⟩
    rw [hbsq] at hsq'
    have hr : (m : ℝ) ^ 2 * (var : ℝ) < ((rate - mean : ℚ) : ℝ) ^ 2 := by
      push_cast
      convert hsq' using 2
    have h2 : ((m ^ 2 * var : ℚ) : ℝ) < (((rate - mean) ^ 2 : ℚ) : ℝ) := by
      push_cast
      convert hr using 2 <;> push_cast <;> ring
    exact_mod_cast h2

theorem detect_anomalies_example : detect_anomalies exBuckets 2 = [] := by
  simp only [detect_anomalies, exBuckets, bucketMean, bucketVariance]
  norm_num [List.filter]

theorem foldl_min_le_init (as : List ℚ) (a : ℚ) : as.foldl min a ≤ a := by
  induction as generalizing a with
  | nil => simp
  | cons x xs ih => exact le_trans (ih (min a x)) (min_le_left a x)

theorem foldl_min_le_mem (as : List ℚ) (a d : ℚ) (hd : d ∈ as) :
    as.foldl min a ≤ d := by
  induction as generalizing a with
  | nil => cases hd
  | cons x xs ih =>
    rcases List.mem_cons.1 hd with rfl | h
    · exact le_trans (foldl_min_le_init xs (min a d)) (min_le_right a d)
    · exact ih _ h

theorem listMin_le (l : List ℚ) (mn d : ℚ) (h : listMin l = some mn)
    (hd : d ∈ l) : mn ≤ d := by
  cases l with
  | nil => cases hd
  | cons a as =>
    simp only [listMin, Option.some.injEq] at h
    subst h
    rcases List.mem_cons.1 hd with rfl | h
    · exact foldl_min_le_init as d
    · exact foldl_min_le_mem as a d h

theorem init_le_foldl_max (as : List ℚ) (a : ℚ) : a ≤ as.foldl max a := by
  induction as generalizing a with
  | nil => simp
  | cons x xs ih => exact le_trans (le_max_left a x) (ih (max a x))

theorem mem_le_foldl_max (as : List ℚ) (a d : ℚ) (hd : d ∈ as) :
    d ≤ as.foldl max a := by
  induction as generalizing a with
  | nil => cases hd
  | cons x xs ih =>
    rcases List.mem_cons.1 hd with rfl | h
    · exact le_trans (le_max_right a d) (init_le_foldl_max xs (max a d))
    · exact ih _ h

theorem le_listMax (l : List ℚ) (mx d : ℚ) (h : listMax l = some mx)
    (hd : d ∈ l) : d ≤ mx := by
  cases l with
  | nil => cases hd
  | cons a as =>
    simp only [listMax, Option.some.injEq] at h
    subst h
    rcases List.mem_cons.1 hd with rfl | h
    · exact init_le_foldl_max as d
    · exact mem_le_foldl_max as a d h

theorem countP_range_eq_one (n i0 : ℕ) (p : ℕ → Bool)
    (hp : ∀ i, p i = true ↔ i = i0) : i0 < n → (List.range n).countP p = 1 := by
  induction n with
  | zero => omega
  | succ n ih =>
    intro h
    rw [List.range_succ, List.countP_append]
    by_cases hi : i0 = n
    · subst hi
      have h0 : (List.range i0).countP p = 0 := by
        rw [List.countP_eq_zero]
        intro a ha
        rw [hp]
        simp only [List.mem_range] at ha
        omega
      have h1 : List.countP p [i0] = 1 := by
        simp [List.countP, List.countP.go, (hp i0).2 rfl]
      omega
    · have h1 : (List.range n).countP p = 1 := ih (by omega)
      have h0 : List.countP p [n] = 0 := by
        rw [List.countP_eq_zero]
        intro a ha
        simp only [List.mem_singleton] at ha
        subst ha
        rw [hp]
        omega
      omega

theorem lmin_ex : listMin [10, 20] = some 10 := by
  simp [listMin, min_def]
  norm_num

theorem lmax_ex : listMax [10, 20] = some 20 := by
  simp [listMax, max_def]
  norm_num

theorem hd_ex : get_latency_distribution [10, 20] 2
    = [⟨10, 15, 1⟩, ⟨15, 20, 0⟩] := by
  simp only [get_latency_distribution, lmin_ex, lmax_ex]
  rw [if_neg (by norm_num)]
  norm_num [List.range_succ, List.filter]

theorem bindExc_pres {α : Type} (f : CbState → α) (E : α)
    (r : CbState × Option String) (k : CbState → CbState × Option String)
    (h1 : f r.1 = E) (h2 : ∀ u, f u = E → f (k u).1 = E) :
    f (bindExc r k).1 = E := by
  rcases r with ⟨u, _ | e⟩
  · exact h2 u h1
  · exact h1

theorem bindPy_pres {α β : Type} (f : CbState → β) (E : β) (o : Option α)
    (u : CbState) (k : α → CbState × Option String)
    (h1 : f u = E) (h2 : ∀ a, f (k a).1 = E) :
    f (bindPy o u k).1 = E := by
  cases o with
  | none => exact h1
  | some a => exact h2 a

theorem writeRow_err (s : CbState) (r : Row) :
    (writeRow s r).1.err_log = s.err_log := by
  unfold writeRow
  split <;> rfl

theorem writeRow_failOn (s : CbState) (r : Row) :
    (writeRow s r).1.failOn = s.failOn := by
  unfold writeRow
  split <;> rfl

theorem writeRow_success (s : CbState) (r : Row) (h : s.failOn r = false) :
    writeRow s r = ({ s with rows := s.rows ++ [r] }, none) := by
  unfold writeRow
  simp [h]

theorem goc_err (s : CbState) (rid : String) :
    (get_or_create_trace_id s rid).2.err_log = s.err_log := by
  unfold get_or_create_trace_id
  cases hd : dictGet s.run_id_to_trace_id rid <;> simp [hd]

theorem goc_failOn (s : CbState) (rid : String) :
    (get_or_create_trace_id s rid).2.failOn = s.failOn := by
  unfold get_or_create_trace_id
  cases hd : dictGet s.run_id_to_trace_id rid <;> simp [hd]

theorem goc_rows (s : CbState) (rid : String) :
    (get_or_create_trace_id s rid).2.rows = s.rows := by
  unfold get_or_create_trace_id
  cases hd : dictGet s.run_id_to_trace_id rid <;> simp [hd]

theorem goc_stack (s : CbState) (rid : String) :
    (get_or_create_trace_id s rid).2.stack = s.stack := by
  unfold get_or_create_trace_id
  cases hd : dictGet s.run_id_to_trace_id rid <;> simp [hd]

theorem goc_session (s : CbState) (rid : String) :
    (get_or_create_trace_id s rid).2.session_id = s.session_id := by
  unfold get_or_create_trace_id
  cases hd : dictGet s.run_id_to_trace_id rid <;> simp [hd]

theorem safe_execute_err (r : CbState × Option String) :
    ∃ es, (safe_execute r).err_log = r.1.err_log ++ es := by
  rcases r with ⟨u, _ | e⟩
  · exact ⟨[], by simp [safe_execute]⟩
  · exact ⟨_, rfl⟩

theorem safe_execute_failOn (r : CbState × Option String) :
    (safe_execute r).failOn = r.1.failOn := by
  rcases r with ⟨u, _ | e⟩ <;> rfl

theorem safe_execute_rows (r : CbState × Option String) :
    (safe_execute r).rows = r.1.rows := by
  rcases r with ⟨u, _ | e⟩ <;> rfl

theorem safe_execute_stack (r : CbState × Option String) :
    (safe_execute r).stack = r.1.stack := by
  rcases r with ⟨u, _ | e⟩ <;> rfl

theorem safe_execute_of_none (r : CbState × Option String) (h : r.2 = none) :
    safe_execute r = r.1 := by
  rcases r with ⟨u, o⟩
  cases h
  rfl

/-- The two state components the failure boundary must not corrupt: the
side-channel log and the store failure behaviour. -/
def stateObs (u : CbState) : List String × (Row → Bool) := (u.err_log, u.failOn)

theorem obs_err {u v : CbState} (h : stateObs u = stateObs v) :
    u.err_log = v.err_log := congrArg Prod.fst h

theorem obs_failOn {u v : CbState} (h : stateObs u = stateObs v) :
    u.failOn = v.failOn := congrArg Prod.snd h

theorem bindExc_writeRow (U : CbState) (r : Row)
    (k : CbState → CbState × Option String) (h : U.failOn r = false) :
    bindExc (writeRow U r) k = k { U with rows := U.rows ++ [r] } := by
  rw [writeRow_success U r h]
  rfl

theorem bindPy_rows {α : Type} (o : Option α) (u : CbState)
    (k : α → CbState × Option String) (h2 : ∀ a, (k a).1.rows = u.rows) :
    (bindPy o u k).1.rows = u.rows :=
  bindPy_pres CbState.rows u.rows o u k rfl h2

theorem writeRow_stack (s : CbState) (r : Row) :
    (writeRow s r).1.stack = s.stack := by
  unfold writeRow
  split <;> rfl

theorem writeRow_rows_ext (s : CbState) (r : Row) :
    ∃ rest, (writeRow s r).1.rows = s.rows ++ rest := by
  unfold writeRow
  split
  · exact ⟨[], by simp⟩
  · exact ⟨[r], rfl⟩

end Obs

namespace Obs

theorem llm_start_obs (s : CbState) (ser : Serialized) (rid : String)
    (prid : Option String) (tags : Option (List String)) (md : Option Metadata)
    (now : ℚ) :
    stateObs (on_llm_start_body s ser rid prid tags md now).1 = stateObs s := by
  cases prid with
  | none =>
    simp only [on_llm_start_body]
    cases hm : serializedName ser with
    | none =>
      simp [hm, stateObs, Prod.mk.injEq, goc_err, goc_failOn]
    | some model =>
      simp only [hm]
      apply bindExc_pres
      · simp [stateObs, Prod.mk.injEq, writeRow_err, writeRow_failOn, goc_err, goc_failOn]
      · intro u hu
        simpa [stateObs, Prod.mk.injEq] using hu
  | some p =>
    simp only [on_llm_start_body]
    cases hm : serializedName ser with
    | none =>
      simp [hm, stateObs, Prod.mk.injEq, goc_err, goc_failOn]
    | some model =>
      simp only [hm]
      apply bindExc_pres
      · simp [stateObs, Prod.mk.injEq, writeRow_err, writeRow_failOn, goc_err, goc_failOn]
      · intro u hu
        simpa [stateObs, Prod.mk.injEq] using hu

theorem llm_end_obs (cfg : Config) (s : CbState) (resp : LLMResult)
    (rid : String) (now : ℚ) :
    stateObs (on_llm_end_body cfg s resp rid now).1 = stateObs s := by
  simp only [on_llm_end_body]
  apply bindExc_pres
  · simp [stateObs, Prod.mk.injEq, writeRow_err, writeRow_failOn, goc_err, goc_failOn]
  · intro u hu
    apply bindExc_pres
    · simp only [stateObs, Prod.mk.injEq, writeRow_err, writeRow_failOn] at hu ⊢
      exact hu
    · intro v hv
      apply bindPy_pres
      · exact hv
      · intro m1
        apply bindPy_pres
        · simpa [stateObs, Prod.mk.injEq] using hv
        · intro m2
          simpa [stateObs, Prod.mk.injEq] using hv

theorem llm_error_obs (s : CbState) (err rid : String) (now : ℚ) :
    stateObs (on_llm_error_body s err rid now).1 = stateObs s := by
  simp only [on_llm_error_body]
  apply bindExc_pres
  · simp [stateObs, Prod.mk.injEq, writeRow_err, writeRow_failOn, goc_err, goc_failOn]
  · intro u hu
    simpa [stateObs, Prod.mk.injEq] using hu

theorem chain_start_obs (cfg : Config) (s : CbState) (ser : Serialized)
    (inp rid : String) (prid : Option String) (tags : Option (List String))
    (md : Option Metadata) (now : ℚ) :
    stateObs (on_chain_start_body cfg s ser inp rid prid tags md now).1
      = stateObs s := by
  cases prid with
  | none =>
    simp only [on_chain_start_body]
    cases hm : serializedName ser with
    | none =>
      simp [hm, stateObs, Prod.mk.injEq, goc_err, goc_failOn]
    | some chain_name =>
      simp only [hm]
      apply bindExc_pres
      · simp [stateObs, Prod.mk.injEq, writeRow_err, writeRow_failOn, goc_err, goc_failOn]
      · intro u hu
        simp only [stateObs, Prod.mk.injEq, writeRow_err, writeRow_failOn] at hu ⊢
        exact hu
  | some p =>
    simp only [on_chain_start_body]
    cases hm : serializedName ser with
    | none =>
      simp [hm, stateObs, Prod.mk.injEq, goc_err, goc_failOn]
    | some chain_name =>
      simp only [hm]
      apply bindExc_pres
      · simp [stateObs, Prod.mk.injEq, writeRow_err, writeRow_failOn, goc_err, goc_failOn]
      · intro u hu
        simp only [stateObs, Prod.mk.injEq, writeRow_err, writeRow_failOn] at hu ⊢
        exact hu

theorem chain_end_obs (cfg : Config) (s : CbState) (out rid : String)
    (now : ℚ) :
    stateObs (on_chain_end_body cfg s out rid now).1 = stateObs s := by
  simp only [on_chain_end_body]
  apply bindExc_pres
  · simp [stateObs, Prod.mk.injEq, writeRow_err, writeRow_failOn, goc_err, goc_failOn]
  · intro u hu
    apply bindExc_pres
    · simp only [stateObs, Prod.mk.injEq, writeRow_err, writeRow_failOn] at hu ⊢
      exact hu
    · intro v hv
      simpa [stateObs, Prod.mk.injEq] using hv

theorem chain_error_obs (s : CbState) (err rid : String) (now : ℚ) :
    stateObs (on_chain_error_body s err rid now).1 = stateObs s := by
  simp only [on_chain_error_body]
  exact llm_error_obs s err rid now

theorem tool_start_obs (cfg : Config) (s : CbState) (ser : Serialized)
    (inp rid : String) (prid : Option String) (tags : Option (List String))
    (md : Option Metadata) (now : ℚ) :
    stateObs (on_tool_start_body cfg s ser inp rid prid tags md now).1
      = stateObs s := by
  cases prid with
  | none =>
    simp only [on_tool_start_body]
    apply bindExc_pres
    · simp [stateObs, Prod.mk.injEq, writeRow_err, writeRow_failOn, goc_err, goc_failOn]
    · intro u hu
      simp only [stateObs, Prod.mk.injEq, writeRow_err, writeRow_failOn] at hu ⊢
      exact hu
  | some p =>
    simp only [on_tool_start_body]
    apply bindExc_pres
    · simp [stateObs, Prod.mk.injEq, writeRow_err, writeRow_failOn, goc_err, goc_failOn]
    · intro u hu
      simp only [stateObs, Prod.mk.injEq, writeRow_err, writeRow_failOn] at hu ⊢
      exact hu

theorem tool_end_obs (cfg : Config) (s : CbState) (out rid : String)
    (now : ℚ) :
    stateObs (on_tool_end_body cfg s out rid now).1 = stateObs s := by
  simp only [on_tool_end_body]
  apply bindExc_pres
  · simp [stateObs, Prod.mk.injEq, writeRow_err, writeRow_failOn, goc_err, goc_failOn]
  · intro u hu
    apply bindExc_pres
    · simp only [stateObs, Prod.mk.injEq, writeRow_err, writeRow_failOn] at hu ⊢
      exact hu
    · intro v hv
      simpa [stateObs, Prod.mk.injEq] using hv

theorem tool_error_obs (s : CbState) (err rid : String) (now : ℚ) :
    stateObs (on_tool_error_body s err rid now).1 = stateObs s := by
  simp only [on_tool_error_body]
  apply bindExc_pres
  · simp [stateObs, Prod.mk.injEq, writeRow_err, writeRow_failOn, goc_err, goc_failOn]
  · intro u hu
    simpa [stateObs, Prod.mk.injEq] using hu

theorem agent_action_obs (cfg : Config) (s : CbState) (act : AgentAction)
    (prid : Option String) (now : ℚ) :
    stateObs (on_agent_action_body cfg s act prid now).1 = stateObs s := by
  cases prid with
  | none =>
    simp only [on_agent_action_body]
    cases hc : get_current_trace_id s.stack with
    | none => simp [hc]
    | some tid =>
      simp only [hc]
      simp [stateObs, Prod.mk.injEq, writeRow_err, writeRow_failOn]
  | some p =>
    simp only [on_agent_action_body]
    simp [stateObs, Prod.mk.injEq, writeRow_err, writeRow_failOn, goc_err, goc_failOn]

theorem agent_finish_obs (cfg : Config) (s : CbState) (fin : AgentFinish)
    (prid : Option String) (now : ℚ) :
    stateObs (on_agent_finish_body cfg s fin prid now).1 = stateObs s := by
  cases prid with
  | none =>
    simp only [on_agent_finish_body]
    cases hc : get_current_trace_id s.stack with
    | none => simp [hc]
    | some tid =>
      simp only [hc]
      simp [stateObs, Prod.mk.injEq, writeRow_err, writeRow_failOn]
  | some p =>
    simp only [on_agent_finish_body]
    simp [stateObs, Prod.mk.injEq, writeRow_err, writeRow_failOn, goc_err, goc_failOn]

theorem safe_obs (s : CbState) (r : CbState × Option String)
    (h : stateObs r.1 = stateObs s) :
    (∃ es, (safe_execute r).err_log = s.err_log ++ es)
    ∧ (safe_execute r).failOn = s.failOn := by
  obtain ⟨es, he⟩ := safe_execute_err r
  exact ⟨⟨es, by rw [he, obs_err h]⟩, by rw [safe_execute_failOn, obs_failOn h]⟩

/-- Every entry point leaves the store failure behaviour untouched and only
ever appends to the side-channel log. -/
theorem step_obs (cfg : Config) (e : CbEvent) (s : CbState) :
    (∃ es, (step cfg e s).err_log = s.err_log ++ es)
    ∧ (step cfg e s).failOn = s.failOn := by
  cases e with
  | llmStart ser rid prid tags md now =>
      exact safe_obs s _ (llm_start_obs s ser rid prid tags md now)
  | llmEnd resp rid now =>
      exact safe_obs s _ (llm_end_obs cfg s resp rid now)
  | llmError err rid now =>
      exact safe_obs s _ (llm_error_obs s err rid now)
  | chainStart ser inp rid prid tags md now =>
      exact safe_obs s _ (chain_start_obs cfg s ser inp rid prid tags md now)
  | chainEnd out rid now =>
      exact safe_obs s _ (chain_end_obs cfg s out rid now)
  | chainError err rid now =>
      exact safe_obs s _ (chain_error_obs s err rid now)
  | toolStart ser inp rid prid tags md now =>
      exact safe_obs s _ (tool_start_obs cfg s ser inp rid prid tags md now)
  | toolEnd out rid now =>
      exact safe_obs s _ (tool_end_obs cfg s out rid now)
  | toolError err rid now =>
      exact safe_obs s _ (tool_error_obs s err rid now)
  | agentAction act prid now =>
      exact safe_obs s _ (agent_action_obs cfg s act prid now)
  | agentFinish fin prid now =>
      exact safe_obs s _ (agent_finish_obs cfg s fin prid now)

/-- When the store accepts completion updates and LLM-call rows, `_on_llm_end`
records both rows for the operation, in order, whatever else is in flight. -/
theorem llm_end_rows_success (cfg : Config) (s : CbState) (resp : LLMResult)
    (rid : String) (now : ℚ)
    (hU : ∀ u : UpdateRec, s.failOn (Row.update u) = false)
    (hC : ∀ c : LLMCallRec, s.failOn (Row.llmCall c) = false) :
    ∃ (u : UpdateRec) (c : LLMCallRec),
      (on_llm_end_body cfg s resp rid now).1.rows
        = s.rows ++ [Row.update u, Row.llmCall c]
      ∧ u.status = "success" ∧ c.trace_id = u.trace_id := by
  simp only [on_llm_end_body, bindExc_writeRow, goc_failOn, hU, hC]
  apply Exists.intro
  apply Exists.intro
  refine ⟨?_, ?_, ?_⟩
  · refine Eq.trans (bindPy_rows _ _ _ ?_) ?_
    · intro m1
      exact Eq.trans (bindPy_rows _ _ _ (fun m2 => rfl)) rfl
    · simp only [goc_rows, List.append_assoc, List.singleton_append]
      rfl
  · rfl
  · rfl

/-- A descriptor whose `id` is not the empty list resolves to a name rather
than raising the `IndexError`. -/
theorem serializedName_of_id_ne (ser : Serialized) (h : ser.id ≠ some []) :
    ∃ model, serializedName ser = some model := by
  unfold serializedName
  cases hid : ser.id with
  | none => exact ⟨_, rfl⟩
  | some l =>
    cases l with
    | nil => exact absurd hid h
    | cons a as =>
      cases hgl : (a :: as).getLast? with
      | none => simp [List.getLast?] at hgl
      | some lastId => exact ⟨ser.name.getD lastId, by simp [hid, hgl]⟩

theorem llm_start_body_success (s : CbState) (ser : Serialized) (rid : String)
    (tags : Option (List String)) (md : Option Metadata) (now : ℚ)
    (model : String) (hS : serializedName ser = some model)
    (hT : ∀ r : TraceRec, s.failOn (Row.trace r) = false) :
    ∃ tr : TraceRec,
      (on_llm_start_body s ser rid none tags md now).2 = none
      ∧ (on_llm_start_body s ser rid none tags md now).1.rows
          = s.rows ++ [Row.trace tr]
      ∧ (on_llm_start_body s ser rid none tags md now).1.stack
          = s.stack ++ [{ trace_id := tr.trace_id, trace_type := "llm",
                          name := tr.name, start_time := tr.start_time,
                          parent_trace_id := get_current_trace_id s.stack,
                          metadata := tr.metadata }]
      ∧ tr.parent_trace_id = get_current_trace_id s.stack
      ∧ tr.trace_type = "llm" := by
  simp only [on_llm_start_body, hS, bindExc_writeRow, goc_failOn, hT, goc_rows,
    goc_stack, push_trace]
  apply Exists.intro
  refine ⟨?_, ?_, ?_, ?_, ?_⟩ <;> first | rfl | trivial

theorem chain_start_body_success (cfg : Config) (s : CbState) (ser : Serialized)
    (inp rid : String) (tags : Option (List String)) (md : Option Metadata)
    (now : ℚ) (chain_name : String) (hS : serializedName ser = some chain_name)
    (hT : ∀ r : TraceRec, s.failOn (Row.trace r) = false) :
    ∃ (tr : TraceRec) (rest : List Row),
      (on_chain_start_body cfg s ser inp rid none tags md now).1.rows
          = s.rows ++ Row.trace tr :: rest
      ∧ (on_chain_start_body cfg s ser inp rid none tags md now).1.stack
          = s.stack ++ [{ trace_id := tr.trace_id, trace_type := "chain",
                          name := tr.name, start_time := tr.start_time,
                          parent_trace_id := get_current_trace_id s.stack,
                          metadata := tr.metadata }]
      ∧ tr.parent_trace_id = get_current_trace_id s.stack
      ∧ tr.trace_type = "chain" := by
  simp only [on_chain_start_body, hS, bindExc_writeRow, goc_failOn, hT, goc_rows,
    goc_stack, push_trace]
  unfold writeRow
  split <;> split
  case isTrue.isTrue =>
    apply Exists.intro
    apply Exists.intro
    refine ⟨?_, ?_, ?_, ?_⟩ <;> rfl
  case isTrue.isFalse =>
    apply Exists.intro
    apply Exists.intro
    refine ⟨?_, ?_, ?_, ?_⟩
    · dsimp only
      rw [List.append_assoc]
      rfl
    · rfl
    · rfl
    · rfl
  case isFalse.isTrue =>
    apply Exists.intro
    apply Exists.intro
    refine ⟨?_, ?_, ?_, ?_⟩ <;> rfl
  case isFalse.isFalse =>
    apply Exists.intro
    apply Exists.intro
    refine ⟨?_, ?_, ?_, ?_⟩
    · dsimp only
      rw [List.append_assoc]
      rfl
    · rfl
    · rfl
    · rfl

end Obs

namespace Obs

/-- Concrete `LLMResult` with no `llm_output`, used to instantiate the
failure-boundary theorem. -/
def exLLMResult : LLMResult :=
  { llm_output := none, generations := [], prompts := none }

/-! ## Claim theorems -/

/-- C1: pushing a new frame records as its `parent_trace_id` exactly the
trace id on top of the stack before the push (or none on an empty stack);
and for any state of one path, an llm or chain start without an explicit
`parent_run_id` creates a trace whose `parent_trace_id`, and pushes a frame
whose `parent_trace_id`, equal the trace id on top of that path's stack at
the start.  The descriptor's `id` must not be the empty list: on that input
the name resolution raises an `IndexError` eagerly and the real handlers
record nothing at all (see `serializedName`), so no frame is pushed and the
claim is vacuous there. -/
theorem claim_parent_from_stack (stack : TraceStack) (tid tty nm : String)
    (t : ℚ) (md : Metadata) (cfg : Config) (ser : Serialized) (rid : String)
    (tags : Option (List String)) (omd : Option Metadata) (now : ℚ)
    (s : CbState) (inp : String) (hI : ser.id ≠ some [])
    (hT : ∀ r : TraceRec, s.failOn (Row.trace r) = false) :
    (push_trace stack tid tty nm t md
      = stack ++ [{ trace_id := tid, trace_type := tty, name := nm,
                    start_time := t,
                    parent_trace_id := get_current_trace_id stack,
                    metadata := md }])
    ∧ (∃ (tr : TraceRec) (fr : Frame),
        (step cfg (CbEvent.llmStart ser rid none tags omd now) s).rows
          = s.rows ++ [Row.trace tr]
        ∧ (step cfg (CbEvent.llmStart ser rid none tags omd now) s).stack
          = s.stack ++ [fr]
        ∧ tr.parent_trace_id = get_current_trace_id s.stack
        ∧ fr.parent_trace_id = get_current_trace_id s.stack
        ∧ fr.trace_id = tr.trace_id)
    ∧ (∃ (tr : TraceRec) (fr : Frame) (rest : List Row),
        (step cfg (CbEvent.chainStart ser inp rid none tags omd now) s).rows
          = s.rows ++ Row.trace tr :: rest
        ∧ (step cfg (CbEvent.chainStart ser inp rid none tags omd now) s).stack
          = s.stack ++ [fr]
        ∧ tr.parent_trace_id = get_current_trace_id s.stack
        ∧ fr.parent_trace_id = get_current_trace_id s.stack
        ∧ fr.trace_id = tr.trace_id) := by
  obtain ⟨model, hS⟩ := serializedName_of_id_ne ser hI
  refine ⟨rfl, ?_, ?_⟩
  · obtain ⟨tr, h2, hrows, hstack, hpar, htype⟩ :=
      llm_start_body_success s ser rid tags omd now model hS hT
    have hstep : step cfg (CbEvent.llmStart ser rid none tags omd now) s
        = (on_llm_start_body s ser rid none tags omd now).1 :=
      safe_execute_of_none _ h2
    exact ⟨tr, _, by rw [hstep, hrows], by rw [hstep, hstack], hpar, rfl, rfl⟩
  · obtain ⟨tr, rest, hrows, hstack, hpar, htype⟩ :=
      chain_start_body_success cfg s ser inp rid tags omd now model hS hT
    have hr : (step cfg (CbEvent.chainStart ser inp rid none tags omd now) s).rows
        = (on_chain_start_body cfg s ser inp rid none tags omd now).1.rows :=
      safe_execute_rows _
    have hs : (step cfg (CbEvent.chainStart ser inp rid none tags omd now) s).stack
        = (on_chain_start_body cfg s ser inp rid none tags omd now).1.stack :=
      safe_execute_stack _
    exact ⟨tr, _, rest, by rw [hr, hrows], by rw [hs, hstack], hpar, rfl, rfl⟩

/-- C1 witness: the theorem at a concrete stack and state. -/
theorem claim_parent_from_stack_witness :
    push_trace ([] : TraceStack) "t0" "llm" "llm_x" 0 []
      = [] ++ [{ trace_id := "t0", trace_type := "llm", name := "llm_x",
                 start_time := 0,
                 parent_trace_id := get_current_trace_id ([] : TraceStack),
                 metadata := [] }] :=
  (claim_parent_from_stack [] "t0" "llm" "llm_x" 0 [] defaultConfig
    ⟨none, none⟩ "r1" none none 0 emptyState "inp" (by decide)
    (fun r => rfl)).1

/-- C2: every public entry point returns normally — errors raised inside a
body are caught at the boundary, reported only to the side-channel log, and
never corrupt the store failure behaviour; and a failure while recording one
operation does not prevent a subsequent, unrelated llm-end from writing its
completion update and LLM-call rows in full. -/
theorem claim_failure_boundary (cfg : Config) (e e1 : CbEvent) (s : CbState)
    (resp : LLMResult) (rid2 : String) (t2 : ℚ)
    (hU : ∀ u : UpdateRec, s.failOn (Row.update u) = false)
    (hC : ∀ c : LLMCallRec, s.failOn (Row.llmCall c) = false) :
    (∃ es, (step cfg e s).err_log = s.err_log ++ es)
    ∧ (step cfg e s).failOn = s.failOn
    ∧ ∃ (u : UpdateRec) (c : LLMCallRec),
        (step cfg (CbEvent.llmEnd resp rid2 t2) (step cfg e1 s)).rows
          = (step cfg e1 s).rows ++ [Row.update u, Row.llmCall c]
        ∧ u.status = "success" ∧ c.trace_id = u.trace_id := by
  refine ⟨(step_obs cfg e s).1, (step_obs cfg e s).2, ?_⟩
  have hf : (step cfg e1 s).failOn = s.failOn := (step_obs cfg e1 s).2
  obtain ⟨u, c, hrows, hst, htid⟩ :=
    llm_end_rows_success cfg (step cfg e1 s) resp rid2 t2
      (fun u => by rw [hf]; exact hU u) (fun c => by rw [hf]; exact hC c)
  have hr : (step cfg (CbEvent.llmEnd resp rid2 t2) (step cfg e1 s)).rows
      = (on_llm_end_body cfg (step cfg e1 s) resp rid2 t2).1.rows :=
    safe_execute_rows _
  exact ⟨u, c, by rw [hr, hrows], hst, htid⟩

/-- C2 witness: an llm-error followed by an llm-end on a fresh state with a
store that accepts updates and LLM-call rows. -/
theorem claim_failure_boundary_witness :
    ∃ (u : UpdateRec) (c : LLMCallRec),
      (step defaultConfig (CbEvent.llmEnd exLLMResult "r2" 5)
          (step defaultConfig (CbEvent.llmError "boom" "r1" 3) emptyState)).rows
        = (step defaultConfig (CbEvent.llmError "boom" "r1" 3) emptyState).rows
            ++ [Row.update u, Row.llmCall c]
      ∧ u.status = "success" ∧ c.trace_id = u.trace_id :=
  (claim_failure_boundary defaultConfig (CbEvent.llmError "boom" "r1" 3)
    (CbEvent.llmError "boom" "r1" 3) emptyState exLLMResult "r2" 5
    (fun u => rfl) (fun c => rfl)).2.2

/-- C3 counterexample: `percentile([10,20,30,40], 0.5)` is `25`, not the `20`
the claim asserts. -/
theorem claim_percentile_counterexample :
    percentile [10, 20, 30, 40] 0.5 = 25
    ∧ percentile [10, 20, 30, 40] 0.5 ≠ 20 :=
  ⟨percentile_example_25, by rw [percentile_example_25]; norm_num⟩

/-- C3 amended: the percentile function computes exactly the spec's
interpolation formula for every `p ∈ [0,1]` (with `int()` truncation equal
to `floor` there); `percentile([10,20,30,40], 0.5) = 25` (not 20); the empty
list yields `0` for every rank and all-zero p50/p95/p99. -/
theorem claim_percentile_amended (data : List ℚ) (p : ℚ)
    (h0 : 0 ≤ p) (h1 : p ≤ 1) :
    percentile data p = percentileSpec data p
    ∧ percentile [10, 20, 30, 40] 0.5 = 25
    ∧ percentile [] p = 0
    ∧ get_percentiles [] = (0, 0, 0) := by
  refine ⟨?_, percentile_example_25, by rfl, by rfl⟩
  unfold percentile percentileSpec
  by_cases hd : data = []
  · simp [hd]
  · simp only [hd, if_false]
    have hlen : 1 ≤ data.length := by
      cases data with
      | nil => exact absurd rfl hd
      | cons a as => simp
    have hk : ((data.length : ℚ) - 1) * p = p * ((data.length : ℚ) - 1) :=
      mul_comm _ _
    have hknn : 0 ≤ ((data.length : ℚ) - 1) * p := by
      apply mul_nonneg _ h0
      have : (1:ℚ) ≤ (data.length : ℚ) := by exact_mod_cast hlen
      linarith
    have hpy : pyInt (((data.length : ℚ) - 1) * p)
        = ⌊((data.length : ℚ) - 1) * p⌋ := by
      unfold pyInt
      rw [if_pos hknn]
    rw [hpy, ← hk]

/-- C3 witness: the amended theorem at `p = 0.5` on `[10,20,30,40]`. -/
theorem claim_percentile_amended_witness :
    percentile [10, 20, 30, 40] 0.5 = percentileSpec [10, 20, 30, 40] 0.5
    ∧ percentile [10, 20, 30, 40] 0.5 = 25 :=
  ⟨(claim_percentile_amended [10, 20, 30, 40] 0.5 (by norm_num) (by norm_num)).1,
   (claim_percentile_amended [10, 20, 30, 40] 0.5 (by norm_num) (by norm_num)).2.1⟩

/-- C4 counterexample: with bucket error rates `[1,1,1,1,50]` and multiplier
2.0, `detect_anomalies` flags nothing — the final bucket's rate equals the
threshold (`50 = 10.8 + 2·19.6`) and the comparison is strict — so the claim
that the final bucket is flagged is false. -/
theorem claim_anomalies_counterexample :
    detect_anomalies exBuckets 2 = []
    ∧ ¬ (∃ a ∈ detect_anomalies exBuckets 2, a.time_bucket = "b4") := by
  refine ⟨detect_anomalies_example, ?_⟩
  rw [detect_anomalies_example]
  rintro ⟨a, ha, -⟩
  cases ha

/-- C4 amended: `detect_anomalies` returns `[]` for fewer than 3 buckets; for
a nonnegative multiplier a report is produced exactly for the buckets whose
rate strictly exceeds `mean + multiplier · √variance` (population mean and
standard deviation), reported with its rate and deviation from the mean; in
particular with `[1,1,1,1,50]` and multiplier 2.0 NO bucket is flagged, the
final bucket's rate being equal to the threshold. -/
theorem claim_anomalies_amended (l : List (String × ℚ)) (m : ℚ) (hm : 0 ≤ m)
    (l' : List (String × ℚ)) (hlen : l'.length < 3) :
    detect_anomalies l' m = []
    ∧ (∀ a : Anomaly, a ∈ detect_anomalies l m ↔
        (3 ≤ l.length ∧ ∃ br ∈ l,
          a = ⟨br.1, br.2, br.2 - bucketMean (l.map (·.2))⟩ ∧
          ((bucketMean (l.map (·.2)) : ℝ)
             + m * Real.sqrt ((bucketVariance (l.map (·.2)) : ℝ))
            < ((br.2 : ℚ) : ℝ))))
    ∧ detect_anomalies exBuckets 2 = [] := by
  refine ⟨?_, ?_, detect_anomalies_example⟩
  · unfold detect_anomalies
    rw [if_pos hlen]
  · intro a
    unfold detect_anomalies
    by_cases hl : l.length < 3
    · rw [if_pos hl]
      simp only [List.not_mem_nil, false_iff, not_and]
      intro h3
      omega
    · rw [if_neg hl]
      simp only [List.mem_map, List.mem_filter, Bool.and_eq_true,
        decide_eq_true_eq]
      constructor
      · rintro ⟨br, ⟨hbr, hm1, hm2⟩, rfl⟩
        refine ⟨by omega, br, hbr, rfl, ?_⟩
        exact (anomaly_flag_iff_sqrt _ _ _ _ hm (bucketVariance_nonneg _)).1
          ⟨hm1, hm2⟩
      · rintro ⟨h3, br, hbr, rfl, hflag⟩
        obtain ⟨hm1, hm2⟩ :=
          (anomaly_flag_iff_sqrt _ _ _ _ hm (bucketVariance_nonneg _)).2 hflag
        exact ⟨br, ⟨hbr, hm1, hm2⟩, rfl⟩

/-- C4 witness: the amended theorem at the empty bucket list and the
`[1,1,1,1,50]` example. -/
theorem claim_anomalies_amended_witness :
    detect_anomalies ([] : List (String × ℚ)) 2 = []
    ∧ detect_anomalies exBuckets 2 = [] :=
  ⟨(claim_anomalies_amended [] 2 (by norm_num) [] (by decide)).1,
   (claim_anomalies_amended [] 2 (by norm_num) [] (by decide)).2.2⟩

/-- C5: `calculate_cost` equals `input/1M · price.input + output/1M ·
price.output` where the price pair comes from the table when present and is
the default pair otherwise; one million input tokens of a known model cost
exactly that model's input price; an unknown model at one million input and
output tokens costs the default pair's sum. Totality and determinism hold by
construction (it is a pure function on its arguments). -/
theorem claim_cost :
    (∀ (model : String) (i o : ℕ),
       calculate_cost model i o
         = (i : ℚ) / 1000000 * (specPrice model).input
           + (o : ℚ) / 1000000 * (specPrice model).output)
    ∧ (∀ (model : String) (p : Pricing), GROQ_PRICING.lookup model = some p →
         calculate_cost model 1000000 0 = p.input)
    ∧ GROQ_PRICING.lookup "mystery-model" = none
    ∧ calculate_cost "mystery-model" 1000000 1000000
        = DEFAULT_PRICING.input + DEFAULT_PRICING.output := by
  refine ⟨fun model i o => rfl, fun model p h => ?_, by rfl, ?_⟩
  · simp only [calculate_cost, h, Option.getD]
    push_cast
    norm_num
  · have h : List.lookup "mystery-model" GROQ_PRICING = none := by rfl
    simp only [calculate_cost, h, Option.getD, DEFAULT_PRICING]
    norm_num

/-- C5 witness: a known model (`llama3-8b-8192`) at exactly one million input
tokens costs its input price, `$0.05`. -/
theorem claim_cost_witness :
    calculate_cost "llama3-8b-8192" 1000000 0 = (0.05 : ℚ) :=
  claim_cost.2.1 "llama3-8b-8192" ⟨0.05, 0.08⟩ (by rfl)

/-- C6 counterexample: `truncate_string("abcdef", 2)` is `"abcde..."`, of
length 8 > 2 — the result length bound fails for maxima below 3 (Python's
negative slice keeps all but the last characters). -/
theorem claim_truncate_counterexample :
    truncate_string "abcdef".data 2 = "abcde...".data
    ∧ ¬ (((truncate_string "abcdef".data 2).length : Int) ≤ 2) :=
  ⟨by rfl, by decide⟩

/-- C6 amended: for every string and maximum length of at least 3 (the
configured maxima are 10000), the result never exceeds the maximum; a
truncated result ends with the `"..."` marker; a string within the maximum
is returned unchanged; and `truncate("abcdef", 4) = "a..."`. -/
theorem claim_truncate_amended (text : List Char) (max_length : Int)
    (h3 : 3 ≤ max_length) :
    ((truncate_string text max_length).length : Int) ≤ max_length
    ∧ (max_length < (text.length : Int) →
        ∃ pre, truncate_string text max_length = pre ++ ellipsis)
    ∧ ((text.length : Int) ≤ max_length → truncate_string text max_length = text)
    ∧ truncate_string "abcdef".data 4 = "a...".data := by
  refine ⟨?_, fun hlong => ?_, fun hshort => ?_, by rfl⟩
  · unfold truncate_string
    split
    · assumption
    · rename_i hlong
      push_neg at hlong
      unfold pyTake ellipsis
      have h03 : (0:Int) ≤ max_length - 3 := by omega
      rw [if_pos h03]
      simp only [List.length_append, List.length_take]
      have htn : ((max_length - 3).toNat : Int) = max_length - 3 :=
        Int.toNat_of_nonneg h03
      have hle : (max_length - 3).toNat ≤ text.length := by omega
      simp only [List.length_cons, List.length_nil]
      push_cast
      omega
  · unfold truncate_string
    rw [if_neg (by omega)]
    exact ⟨_, rfl⟩
  · unfold truncate_string
    rw [if_pos hshort]

/-- C6 witness: the amended theorem at `"abcdef"` with maximum 4. -/
theorem claim_truncate_amended_witness :
    ((truncate_string "abcdef".data 4).length : Int) ≤ 4
    ∧ truncate_string "abcdef".data 4 = "a...".data :=
  ⟨(claim_truncate_amended "abcdef".data 4 (by decide)).1,
   (claim_truncate_amended "abcdef".data 4 (by decide)).2.2.2⟩

/-- C7 counterexample: on durations `[10, 20]` with 2 buckets, the histogram
is `[[10,15):1, [15,20):0]` — the counts sum to 1, not 2, and no bucket's
half-open range contains the maximum duration 20, so the last bin is NOT
inclusive of the maximum. -/
theorem claim_histogram_counterexample :
    get_latency_distribution [10, 20] 2 = [⟨10, 15, 1⟩, ⟨15, 20, 0⟩]
    ∧ ((get_latency_distribution [10, 20] 2).map (·.count)).sum = 1
    ∧ ([10, 20] : List ℚ).length = 2
    ∧ ¬ (∃ b ∈ get_latency_distribution [10, 20] 2,
          b.bucket_min ≤ 20 ∧ (20 : ℚ) < b.bucket_max) := by
  refine ⟨hd_ex, by rw [hd_ex]; rfl, by rfl, ?_⟩
  rw [hd_ex]
  rintro ⟨b, hb, hle, hlt⟩
  simp only [List.mem_cons, List.not_mem_nil, or_false] at hb
  rcases hb with rfl | rfl
  · norm_num at hlt
  · norm_num at hlt

/-- C7 amended: with a positive bucket count and a nonzero minimum, each
bucket of the histogram counts the durations in its half-open range
`[bucket_min, bucket_max)`; every duration strictly below the maximum falls
in exactly one bucket's range; and the maximum itself falls in NO bucket's
range (all bins, the last included, are half-open). -/
theorem claim_histogram_amended (durations : List ℚ) (num_buckets : ℕ)
    (mn mx : ℚ) (hnb : 0 < num_buckets)
    (hmin : listMin durations = some mn) (hmax : listMax durations = some mx)
    (hmn0 : mn ≠ 0) :
    (∀ b ∈ get_latency_distribution durations num_buckets,
        b.count = (durations.filter
          (fun d => decide (b.bucket_min ≤ d) && decide (d < b.bucket_max))).length)
    ∧ (∀ d ∈ durations, d < mx →
        ((get_latency_distribution durations num_buckets).filter
           (fun b => decide (b.bucket_min ≤ d) && decide (d < b.bucket_max))).length = 1)
    ∧ ((get_latency_distribution durations num_buckets).filter
         (fun b => decide (b.bucket_min ≤ mx) && decide (mx < b.bucket_max))).length = 0 := by
  have hnbq : (0:ℚ) < (num_buckets : ℚ) := by exact_mod_cast hnb
  set w : ℚ := (mx - mn) / (num_buckets : ℚ) with hw
  have hdist : get_latency_distribution durations num_buckets
      = (List.range num_buckets).map (fun (i : ℕ) =>
          ({ bucket_min := mn + (i : ℚ) * w,
             bucket_max := mn + (i : ℚ) * w + w,
             count := (durations.filter (fun d =>
               decide (mn + (i : ℚ) * w ≤ d) &&
               decide (d < mn + (i : ℚ) * w + w))).length } : HistBucket)) := by
    simp only [get_latency_distribution, hmin, hmax]
    rw [if_neg hmn0]
  have hne : durations ≠ [] := by
    intro h
    rw [h] at hmin
    simp [listMin] at hmin
  obtain ⟨d0, hd0⟩ := List.exists_mem_of_ne_nil durations hne
  have hmnmx : mn ≤ mx :=
    le_trans (listMin_le durations mn d0 hmin hd0)
      (le_listMax durations mx d0 hmax hd0)
  have hwnn : 0 ≤ w := div_nonneg (by linarith) (le_of_lt hnbq)
  have hnbw : (num_buckets : ℚ) * w = mx - mn := by
    rw [hw]
    field_simp
  refine ⟨?_, ?_, ?_⟩
  · intro b hb
    rw [hdist] at hb
    obtain ⟨i, _, rfl⟩ := List.mem_map.1 hb
    rfl
  · intro d hd hdmx
    have hmnd : mn ≤ d := listMin_le durations mn d hmin hd
    have hwpos : 0 < w := by
      apply div_pos _ hnbq
      linarith [lt_of_le_of_lt hmnd hdmx]
    have hqnn : 0 ≤ (d - mn) / w := div_nonneg (by linarith) (le_of_lt hwpos)
    have hfl0 : 0 ≤ ⌊(d - mn) / w⌋ := Int.floor_nonneg.2 hqnn
    rw [hdist, ← List.countP_eq_length_filter, List.countP_map]
    apply countP_range_eq_one num_buckets (⌊(d - mn) / w⌋).toNat
    · intro i
      simp only [Function.comp_apply, Bool.and_eq_true, decide_eq_true_eq]
      constructor
      · rintro ⟨hle, hlt⟩
        have hle1 : (i : ℚ) ≤ (d - mn) / w := (le_div_iff₀ hwpos).2 (by linarith)
        have hlt2 : (d - mn) / w < (i : ℚ) + 1 :=
          (div_lt_iff₀ hwpos).2 (by ring_nf; ring_nf at hlt; linarith)
        have hle1i : (i : ℤ) ≤ ⌊(d - mn) / w⌋ :=
          Int.le_floor.2 (by exact_mod_cast hle1)
        have hlt2i : ⌊(d - mn) / w⌋ < (i : ℤ) + 1 :=
          Int.floor_lt.2 (by push_cast; exact hlt2)
        omega
      · rintro rfl
        have htn : ((⌊(d - mn) / w⌋.toNat : ℚ)) = ((⌊(d - mn) / w⌋ : ℤ) : ℚ) := by
          exact_mod_cast Int.toNat_of_nonneg hfl0
        have hfle : ((⌊(d - mn) / w⌋.toNat : ℚ)) ≤ (d - mn) / w := by
          rw [htn]
          exact Int.floor_le _
        have hflt : (d - mn) / w < (⌊(d - mn) / w⌋.toNat : ℚ) + 1 := by
          rw [htn]
          exact Int.lt_floor_add_one _
        constructor
        · have := (le_div_iff₀ hwpos).1 hfle
          push_cast at this ⊢
          linarith
        · have := (div_lt_iff₀ hwpos).1 hflt
          push_cast at this ⊢
          ring_nf at this ⊢
          linarith
    · have hup : (d - mn) / w < (num_buckets : ℚ) := by
        rw [div_lt_iff₀ hwpos]
        rw [mul_comm] at hnbw ⊢
        rw [hnbw]
        linarith
      have hfloor : ⌊(d - mn) / w⌋ < (num_buckets : ℤ) :=
        Int.floor_lt.2 (by exact_mod_cast hup)
      omega
  · rw [hdist, ← List.countP_eq_length_filter, List.countP_map]
    rw [List.countP_eq_zero]
    intro i hi
    simp only [Function.comp_apply, Bool.and_eq_true, decide_eq_true_eq, not_and]
    intro _
    have hin : i + 1 ≤ num_buckets := List.mem_range.1 hi
    have hile : (i : ℚ) + 1 ≤ (num_buckets : ℚ) := by exact_mod_cast hin
    have hmul : ((i : ℚ) + 1) * w ≤ (num_buckets : ℚ) * w :=
      mul_le_mul_of_nonneg_right hile hwnn
    rw [hnbw] at hmul
    intro hcon
    nlinarith

/-- C7 witness: the amended theorem on `[10, 20]` with 2 buckets: the
duration 10 falls in exactly one bucket range. -/
theorem claim_histogram_amended_witness :
    ((get_latency_distribution [10, 20] 2).filter
       (fun b => decide (b.bucket_min ≤ 10) && decide ((10:ℚ) < b.bucket_max))).length = 1 :=
  (claim_histogram_amended [10, 20] 2 10 20 (by norm_num) lmin_ex lmax_ex
      (by norm_num)).2.1 10 (by simp) (by norm_num)

/-- C8: the error rate over a filtered trace set is
`safe_divide(error_count, total_count, 0) * 100` — in particular `0` on an
empty set rather than a division failure — and `safe_divide(n, d, default)`
returns `n/d` for nonzero `d` and `default` for `d = 0`, never raising. -/
theorem claim_error_rate (statuses : List Status) (n d dflt : ℚ) :
    get_error_rate statuses
      = safe_divide (((statuses.filter (· = Status.error)).length : ℚ))
          ((statuses.length : ℚ)) 0 * 100
    ∧ get_error_rate [] = 0
    ∧ (d ≠ 0 → safe_divide n d dflt = n / d)
    ∧ (d = 0 → safe_divide n d dflt = dflt) := by
  refine ⟨?_, by rfl, fun h => by simp [safe_divide, h],
    fun h => by simp [safe_divide, h]⟩
  unfold get_error_rate safe_divide
  by_cases h : statuses.length = 0
  · simp [h]
  · have h' : (0:ℕ) < statuses.length := Nat.pos_of_ne_zero h
    have hq : ((statuses.length : ℚ)) ≠ 0 := by positivity
    simp [h', hq]

/-- C8 witness: the theorem at a concrete division. -/
theorem claim_error_rate_witness :
    safe_divide 1 2 0 = 1 / 2 :=
  (claim_error_rate [] 1 2 0).2.2.1 (by norm_num)

/-- C9: `pop_trace` returns the top frame and removes it (the stack length
drops by one) on a non-empty stack, and on an empty stack returns none and
leaves the stack empty, never raising — uniformly, the returned frame is
`getLast?` and the remaining stack is `dropLast`. -/
theorem claim_pop_trace (stack : TraceStack) :
    (pop_trace stack).1 = stack.getLast?
    ∧ (pop_trace stack).2 = stack.dropLast
    ∧ get_stack_depth (pop_trace stack).2 = get_stack_depth stack - 1 := by
  unfold pop_trace get_stack_depth
  by_cases h : stack = []
  · subst h
    simp
  · simp [h, List.length_dropLast]

/-- C10: `_get_or_create_trace_id` is idempotent — after one call the run id
maps to the returned trace id, a repeated call returns the same id without
modifying the state, other run ids' mappings never change, a mapped run id
is returned as-is with the state untouched, and an unseen run id is bound to
the freshly generated id, appended to the map. -/
theorem claim_run_correlation (s : CbState) (rid rid2 t : String)
    (hne : rid2 ≠ rid) :
    (dictGet (get_or_create_trace_id s rid).2.run_id_to_trace_id rid
       = some (get_or_create_trace_id s rid).1)
    ∧ (get_or_create_trace_id (get_or_create_trace_id s rid).2 rid
       = ((get_or_create_trace_id s rid).1, (get_or_create_trace_id s rid).2))
    ∧ (dictGet (get_or_create_trace_id s rid).2.run_id_to_trace_id rid2
       = dictGet s.run_id_to_trace_id rid2)
    ∧ (dictGet s.run_id_to_trace_id rid = some t →
        get_or_create_trace_id s rid = (t, s))
    ∧ (dictGet s.run_id_to_trace_id rid = none →
        (get_or_create_trace_id s rid).2.run_id_to_trace_id
          = s.run_id_to_trace_id ++ [(rid, generate_trace_id s.fresh)]
        ∧ (get_or_create_trace_id s rid).1 = generate_trace_id s.fresh) := by
  rcases hg : dictGet s.run_id_to_trace_id rid with _ | t0
  · have hset : dictSet s.run_id_to_trace_id rid (generate_trace_id s.fresh)
        = s.run_id_to_trace_id ++ [(rid, generate_trace_id s.fresh)] :=
      dictSet_of_none _ _ _ hg
    have hres : get_or_create_trace_id s rid
        = (generate_trace_id s.fresh,
            { s with
                run_id_to_trace_id :=
                  (s.run_id_to_trace_id ++ [(rid, generate_trace_id s.fresh)]),
                fresh := s.fresh + 1 }) := by
      unfold get_or_create_trace_id
      rw [hg]
      simp [hset]
    rw [hres]
    have hg1 : dictGet (s.run_id_to_trace_id ++ [(rid, generate_trace_id s.fresh)]) rid
        = some (generate_trace_id s.fresh) := dictGet_append_self _ _ _ hg
    refine ⟨hg1, ?_, ?_, ?_, fun _ => ⟨rfl, rfl⟩⟩
    · unfold get_or_create_trace_id
      simp only [hg1]
    · exact dictGet_append_other _ _ _ _ hne
    · intro hsome
      cases hsome
  · have hres : get_or_create_trace_id s rid = (t0, s) := by
      unfold get_or_create_trace_id
      rw [hg]
    rw [hres]
    refine ⟨hg, hres, rfl, ?_, ?_⟩
    · intro hsome
      cases hsome
      rfl
    · intro hnone
      cases hnone

/-- C10 witness: the theorem at a fresh state and distinct run ids: resolving
"r1" does not change the mapping of "r2". -/
theorem claim_run_correlation_witness :
    dictGet (get_or_create_trace_id emptyState "r1").2.run_id_to_trace_id "r2"
      = dictGet emptyState.run_id_to_trace_id "r2" :=
  (claim_run_correlation emptyState "r1" "r2" "x" (by decide)).2.2.1

end Obs
